import Mathlib

/-
Formal model of `src/show_score.py`, a disc-golf tournament scoreboard parser
and standings computer.  Pure functions of the Python source are translated to
Lean functions; lines/tokens are `List String`; Python `IndexError`-driven
control flow becomes `Option`, raised `ValueError`s become `Except String`;
pandas `NaN` cells become `none : Option Int`.  Loops that scan forward are
written with an explicit fuel argument equal to the input length plus one,
which is always sufficient (each iteration consumes at least one token).
-/

namespace ShowScore

/-- Python `line.isdigit()` as used by `is_place_difference` (line 17-18):
nonempty and all characters are digits. -/
def is_place_difference (line : String) : Bool :=
  !line.data.isEmpty && line.data.all Char.isDigit

/-- Occurrence of `kw` as a contiguous subsequence of `l`. -/
def occursIn (kw : List Char) : List Char → Bool
  | [] => kw.isEmpty
  | l@(_ :: rest) => kw.isPrefixOf l || occursIn kw rest

/-- Python substring test `keyword in line`. -/
def containsSubstring (line keyword : String) : Bool :=
  occursIn keyword.data line.data

/-- `locate_line` (lines 20-24): index of the first line containing `keyword`;
the Python `-1` sentinel is modelled as `none`. -/
def locate_line : List String → String → Option Nat
  | [], _ => none
  | line :: rest, keyword =>
    if containsSubstring line keyword then some 0
    else (locate_line rest keyword).map (· + 1)

/-- `parse_tournament_details` (lines 26-32): locate "TIER", falling back to
"MAJOR", and return the slice `content[index+1 : index+4]` (a Python slice,
so it may be shorter than three lines). -/
def parse_tournament_details (content : List String) : Except String (List String) :=
  match locate_line content "TIER" with
  | some i => .ok ((content.drop (i + 1)).take 3)
  | none =>
    match locate_line content "MAJOR" with
    | some i => .ok ((content.drop (i + 1)).take 3)
    | none => .error "Tournament details not found"

/-- Value of a list of ASCII digit characters, most significant first. -/
def digitsVal (ds : List Char) : Nat :=
  ds.foldl (fun acc c => 10 * acc + (c.toNat - 48)) 0

/-- Integer reading shared by Python `int(...)` and
`pd.to_numeric(..., errors="coerce")` on this report's score tokens:
an optional sign followed by one or more ASCII digits; anything else is a
conversion failure (`none`, i.e. `ValueError` / `NaN`).  (Score tokens in the
source format are always integral, so the fractional forms `to_numeric` would
additionally accept never occur.) -/
def parseIntOpt (s : String) : Option Int :=
  match s.data with
  | [] => none
  | '-' :: ds =>
    if !ds.isEmpty && ds.all Char.isDigit then some (-(Int.ofNat (digitsVal ds))) else none
  | '+' :: ds =>
    if !ds.isEmpty && ds.all Char.isDigit then some (Int.ofNat (digitsVal ds)) else none
  | ds =>
    if ds.all Char.isDigit then some (Int.ofNat (digitsVal ds)) else none

/-- A pandas cell holding either a raw string (as parsed from the report) or an
already-coerced numeric value (`none` = `NaN`).  `get_start_scores` rewrites the
string score columns of the player table into numeric ones in place, so both
states are observable. -/
inductive SNum where
  | str : String → SNum
  | num : Option Int → SNum
deriving DecidableEq, Repr

/-- `Series.replace("E", "0")`: only whole cells equal to `"E"` are replaced;
already-numeric cells are untouched. -/
def replaceE : SNum → SNum
  | .str s => .str (if s = "E" then "0" else s)
  | .num n => .num n

/-- `pd.to_numeric(..., errors="coerce")` on a cell. -/
def toNumeric : SNum → Option Int
  | .str s => parseIntOpt s
  | .num n => n

/-- NaN-propagating subtraction of two pandas numeric cells. -/
def optSub : Option Int → Option Int → Option Int
  | some a, some b => some (a - b)
  | _, _ => none

/-- One row of a round's player table as produced by `parse_player_data`
(lines 68-75), together with the columns that `add_hole_status` and
`get_start_scores` later add in place (`none` = column not yet present). -/
structure PlayerRec where
  place : String
  name : String
  totalScore : SNum
  roundScore : SNum
  holeScores : List String
  rating : String
  holeDiff : Option (List Int) := none
  holeStatus : Option (List String) := none
  startScore : Option (Option Int) := none
deriving DecidableEq, Repr

/-- The optional "movement" skip of `parse_player_data` (lines 48-49): consume
one more token when it is purely numeric. -/
def skipMovement : List String → List String
  | [] => []
  | t :: rest => if is_place_difference t then rest else t :: rest

/-- One iteration of the `while` loop of `parse_player_data` (lines 43-77):
placement token; optional purely-numeric movement token; name; for the first
round one score token (used as both total and round) and `i += 3`, otherwise
total then round and `i += 4` — in both cases one token beyond the score
tokens is stepped over without being stored; then the slice of 18 hole-score
tokens; then `rating = content[i + 1]` (the second token of the rating pair).
`none` is the `IndexError` that breaks the loop; otherwise the produced row
is returned with the remaining tokens. -/
def consumeRecord (is_first_round : Bool) : List String → Option (PlayerRec × List String)
  | [] => none
  | placement :: r1 =>
    let r2 := skipMovement r1
    match r2 with
    | [] => none
    | name :: _ =>
      if is_first_round then
        match r2[1]? with
        | none => none
        | some s =>
          let r3 := r2.drop 3
          let holes := r3.take 18
          let r4 := r3.drop 18
          match r4[1]? with
          | none => none
          | some rating =>
            some ({ place := placement, name := name, totalScore := .str s,
                    roundScore := .str s, holeScores := holes, rating := rating },
                  r4.drop 2)
      else
        match r2[1]?, r2[2]? with
        | some t, some s =>
          let r3 := r2.drop 4
          let holes := r3.take 18
          let r4 := r3.drop 18
          match r4[1]? with
          | none => none
          | some rating =>
            some ({ place := placement, name := name, totalScore := .str t,
                    roundScore := .str s, holeScores := holes, rating := rating },
                  r4.drop 2)
        | _, _ => none

/-- The record loop of `parse_player_data`, with explicit fuel (each successful
iteration consumes at least 24 tokens, so `content.length + 1` fuel always
suffices; see `parsePlayerAux_fuel_irrel`). -/
def parsePlayerAux : Nat → Bool → List String → List PlayerRec
  | 0, _, _ => []
  | fuel + 1, first, rest =>
    match consumeRecord first rest with
    | none => []
    | some (row, r5) => row :: parsePlayerAux fuel first r5

/-- `parse_player_data` (lines 40-79). -/
def parse_player_data (content : List String) (is_first_round : Bool) : List PlayerRec :=
  parsePlayerAux (content.length + 1) is_first_round content

/-- The character class `[a-záéíóúýčďěňřšťžů]` of `add_space_to_name`
(line 134), by code point: the ASCII lowercase range plus
á é í ó ú ý č ď ě ň ř š ť ž ů (225 233 237 243 250 253 269 271 283 328 345
353 357 382 367). -/
def isLowerCz (c : Char) : Bool :=
  (97 ≤ c.toNat && c.toNat ≤ 122) ||
  (c.toNat == 225) || (c.toNat == 233) || (c.toNat == 237) || (c.toNat == 243) ||
  (c.toNat == 250) || (c.toNat == 253) || (c.toNat == 269) || (c.toNat == 271) ||
  (c.toNat == 283) || (c.toNat == 328) || (c.toNat == 345) || (c.toNat == 353) ||
  (c.toNat == 357) || (c.toNat == 382) || (c.toNat == 367)

/-- The character class `[A-ZÁÉÍÓÚÝČĎĚŇŘŠŤŽŮ]` of `add_space_to_name`
(line 134), by code point: the ASCII uppercase range plus
Á É Í Ó Ú Ý Č Ď Ě Ň Ř Š Ť Ž Ů (193 201 205 211 218 221 268 270 282 327 344
352 356 381 366). -/
def isUpperCz (c : Char) : Bool :=
  (65 ≤ c.toNat && c.toNat ≤ 90) ||
  (c.toNat == 193) || (c.toNat == 201) || (c.toNat == 205) || (c.toNat == 211) ||
  (c.toNat == 218) || (c.toNat == 221) || (c.toNat == 268) || (c.toNat == 270) ||
  (c.toNat == 282) || (c.toNat == 327) || (c.toNat == 344) || (c.toNat == 352) ||
  (c.toNat == 356) || (c.toNat == 381) || (c.toNat == 366)

/-- `re.sub` with the fixed pattern of `add_space_to_name` over the character
list: scanning left to right, a match is a lowercase-class character
immediately followed by an uppercase-class character, replaced by the pair
with a space in between; scanning resumes after the match (matches cannot
overlap because the two classes are disjoint). -/
def addSpaceChars : List Char → List Char
  | [] => []
  | [c] => [c]
  | c1 :: c2 :: rest =>
    if isLowerCz c1 && isUpperCz c2 then c1 :: ' ' :: c2 :: addSpaceChars rest
    else c1 :: addSpaceChars (c2 :: rest)

/-- `add_space_to_name` (lines 133-134). -/
def add_space_to_name (name : String) : String :=
  ⟨addSpaceChars name.data⟩

/-- The round-scanning loop of `parse_all_player_data` (lines 86-108), with
explicit fuel (`start_index` strictly increases while bounded by the input
length, so `content.length + 1` fuel always suffices).  When a round section
parses to zero records, `parse_player_data` returns `pd.DataFrame([])`, a
DataFrame with no columns, and the column access `round_df["Name"]` on
line 103 raises `KeyError: Name` — modelled by the emptiness check before
the name normalization. -/
def parseAllAux : Nat → List String → Nat → Nat → Except String (List (List PlayerRec))
  | 0, _, _, _ => .ok []
  | fuel + 1, content, start, roundsParsed =>
    if start < content.length then
      match locate_line (content.drop start) "ALL PLAYERS" with
      | none => .ok []
      | some api =>
        let start1 := start + api + 1
        match locate_line (content.drop start1) "COLOR ACCESSIBILITY" with
        | none => .error "End of player data not found for one of the rounds"
        | some rel =>
          let roundData := (content.drop start1).take rel
          let parsed := parse_player_data roundData (roundsParsed == 0)
          if parsed.isEmpty then .error "KeyError: Name"
          else
            let roundDf := parsed.map
              (fun r => { r with name := add_space_to_name r.name })
            match parseAllAux fuel content (start1 + rel + 1) (roundsParsed + 1) with
            | .ok rest => .ok (roundDf :: rest)
            | .error e => .error e
    else .ok []

/-- `parse_all_player_data` (lines 81-110). -/
def parse_all_player_data (content : List String) : Except String (List (List PlayerRec)) :=
  parseAllAux (content.length + 1) content 0 0

/-- The column-building loop of `parse_course_info` (lines 117-124): walk the
data in steps of three, appending to the three column lists in order and
breaking on the first `IndexError` — note a partial iteration's appends
survive the break. -/
def courseLists : List String → List String × List String × List String
  | [] => ([], [], [])
  | [a] => ([a], [], [])
  | [a, b] => ([a], [b], [])
  | a :: b :: c :: rest =>
    let t := courseLists rest
    (a :: t.1, b :: t.2.1, c :: t.2.2)

/-- `parse_course_info` (lines 112-130): slice `18 * 3` tokens after the
"Thru" marker, build the three columns, and construct the DataFrame — the
`pd.DataFrame` constructor raises when the column lists have unequal
lengths. -/
def parse_course_info (content : List String) :
    Except String (List String × List String × List String) :=
  match locate_line content "Thru" with
  | none => .error "Course information not found"
  | some index =>
    let course_info_data := (content.drop (index + 1)).take (18 * 3)
    let t := courseLists course_info_data
    if t.1.length = t.2.1.length ∧ t.2.1.length = t.2.2.length then .ok t
    else .error "All arrays must be of the same length"

/-- The `score_map` dictionary of `add_hole_status` (lines 139-142). -/
def score_map : List (Int × String) :=
  [(-4, "CONDOR"), (-3, "ALBATROSS"), (-2, "EAGLE"), (-1, "BIRDIE"), (0, "PAR"),
   (1, "BOGEY"), (2, "DBL BOGEY"), (3, "TRPL BOGEY"), (4, "4x BOGEY"), (5, "5x BOGEY")]

/-- `int(score)` with the `except ValueError: score_int = 999` fallback of
`add_hole_status` (lines 151-154). -/
def scoreIntOf (score : String) : Int :=
  (parseIntOpt score).getD 999

/-- The per-hole status of `add_hole_status` (lines 158-161): "HOLE IN ONE"
for a diff of -2 on a par 3 or -3 on a par 4, otherwise
`score_map.get(diff, f"{diff}x BOGEY")`. -/
def holeStatusOf (score_int par : Int) : String :=
  let diff := score_int - par
  if (diff = -2 ∧ par = 3) ∨ (diff = -3 ∧ par = 4) then "HOLE IN ONE"
  else (score_map.lookup diff).getD (toString diff ++ "x BOGEY")

/-- `add_hole_status` (lines 136-167): for each record, zip its hole scores
with the course par values (`zip` truncates at the shorter list), compute the
diffs and statuses, and set the two columns on the table in place (the Python
function mutates and returns the same DataFrame).  `par_values` is the already
`astype(int)`-converted `course_df["Par"]` column (line 138). -/
def add_hole_status (player_df : List PlayerRec) (par_values : List Int) : List PlayerRec :=
  player_df.map fun r =>
    let diffs := List.zipWith (fun s p => scoreIntOf s - p) r.holeScores par_values
    let statuses := List.zipWith (fun s p => holeStatusOf (scoreIntOf s) p) r.holeScores par_values
    { r with holeDiff := some diffs, holeStatus := some statuses }

/-- Coercion applied by `get_start_scores` to the total and round score
columns (lines 198-199): `pd.to_numeric(col.replace("E", "0"), errors="coerce")`. -/
def coerceScore (x : SNum) : Option Int :=
  toNumeric (replaceE x)

/-- Start score of one record (line 200): coerced total minus coerced round
(`NaN` propagates). -/
def startScoreOf (r : PlayerRec) : Option Int :=
  optSub (coerceScore r.totalScore) (coerceScore r.roundScore)

/-- `get_start_scores` (lines 191-201): overwrite the total and round score
columns with their numeric coercions, add the start score column (these are
in-place mutations of the caller's table, returned as the second component),
and return the `[["Name", "Start Score"]]` projection. -/
def get_start_scores (player_df : List PlayerRec) :
    List (String × Option Int) × List PlayerRec :=
  (player_df.map (fun r => (r.name, startScoreOf r)),
   player_df.map (fun r =>
     { r with totalScore := .num (coerceScore r.totalScore),
              roundScore := .num (coerceScore r.roundScore),
              startScore := some (startScoreOf r) }))

/-- One row of the intermediate standings table of `get_score_midround`
before sorting/formatting: name, the numeric `Total` and `Rd` columns
(`none` = `NaN`), and the truncated hole scores.  (The truncated hole-status
column is also built by the Python code but never escapes the function, so it
is not tracked.) -/
structure MidRow where
  name : String
  totalN : Option Int
  rdN : Option Int
  holes : List String
deriving DecidableEq, Repr

/-- Pandas ascending comparison of two possibly-`NaN` cells: `NaN` sorts
last (`na_position="last"`), i.e. compares greater than everything. -/
def optLT : Option Int → Option Int → Bool
  | some a, some b => decide (a < b)
  | some _, none => true
  | none, _ => false

/-- Non-strict version of `optLT` (used for the single-key `H = 0` sort). -/
def optLE : Option Int → Option Int → Bool
  | none, none => true
  | none, some _ => false
  | some _, none => true
  | some a, some b => decide (a ≤ b)

/-- Lexicographic code-point comparison of character lists; this is how both
Python and pandas order the `Name` strings. -/
def charListLE : List Char → List Char → Bool
  | [], _ => true
  | _ :: _, [] => false
  | a :: as, b :: bs =>
    if a.toNat < b.toNat then true
    else if b.toNat < a.toNat then false
    else charListLE as bs

/-- String comparison used for the `Name` tie-break. -/
def strLE (a b : String) : Bool :=
  charListLE a.data b.data

/-- The lexicographic key of `sort_values(by=["Total", "Rd", "Name"],
ascending=[True, True, True])` (line 242), with `NaN` last in each key. -/
def midLE (a b : MidRow) : Bool :=
  optLT a.totalN b.totalN ||
  (a.totalN == b.totalN && (optLT a.rdN b.rdN ||
    (a.rdN == b.rdN && strLE a.name b.name)))

/-- The `H = 0` sort key of line 213 (`sort_values(by="Total")`). -/
def totalRel (a b : MidRow) : Prop :=
  optLE a.totalN b.totalN = true

/-- The `H > 0` sort key of line 242 as a relation. -/
def midRel (a b : MidRow) : Prop :=
  midLE a b = true

instance : DecidableRel totalRel := fun a b => by unfold totalRel; infer_instance

instance : DecidableRel midRel := fun a b => by unfold midRel; infer_instance

/-- The two branches of `get_score_midround` building the pre-sort standings
table (lines 209-240), along with the mutated player table: `H = 0` takes the
start scores as totals with `Rd = 0` and empty hole lists; `H > 0` adds the
sum of the first `H` hole diffs to the start score, with `Rd` the cumulative
total minus the start score, and truncates the hole scores to `H`. -/
def midTable (player_df : List PlayerRec) (hole_num : Nat) (par_values : List Int) :
    List MidRow × List PlayerRec :=
  let df1 := add_hole_status player_df par_values
  let sres := get_start_scores df1
  let mids :=
    if hole_num = 0 then
      sres.1.map (fun p => { name := p.1, totalN := p.2, rdN := some 0, holes := [] })
    else
      List.zipWith (fun (p : String × Option Int) (r : PlayerRec) =>
        let total_diff : Int := ((r.holeDiff.getD []).take hole_num).sum
        let cumulative := p.2.map (· + total_diff)
        { name := p.1, totalN := cumulative, rdN := optSub cumulative p.2,
          holes := r.holeScores.take hole_num } : String × Option Int → PlayerRec → MidRow)
        sres.1 sres.2
  (mids, sres.2)

/-- `rank(method="min", ascending=True)` of a value within a column
(line 253): one plus the number of strictly smaller entries. -/
def rankMin (totals : List Int) (t : Int) : Nat :=
  1 + (totals.filter (fun x => decide (x < t))).length

/-- The place formatting of lines 256-258: prefix "T" exactly when the place
value occurs more than once in the `Place` column. -/
def placeStr (places : List Nat) (p : Nat) : String :=
  if 1 < (places.filter (fun q => q == p)).length then "T" ++ toString p else toString p

/-- The display formatting of `Total` and `Rd` (lines 260-266):
999 ↦ "DNF", 0 ↦ "E", positive ↦ "+N", negative ↦ "-N". -/
def fmtScore (x : Int) : String :=
  if x = 999 then "DNF" else if x = 0 then "E"
  else if 0 < x then "+" ++ toString x else toString x

/-- One output row of `get_score_midround`
(`[["Place", "Name", "Total", "Rd", "Hole Scores"]]`, line 268). -/
structure StandingsRow where
  place : String
  name : String
  total : String
  rd : String
  holeScores : List String
deriving DecidableEq, Repr

/-- The post-sort stage of `get_score_midround` (lines 245-268): fill `NaN`
with 999 (`fillna`), assign competition ("min") places over `Total`, prefix
"T" on shared places, and format the `Total` and `Rd` columns. -/
def formatStandings (sorted : List MidRow) : List StandingsRow :=
  let totals999 := sorted.map (fun r => r.totalN.getD 999)
  let places := totals999.map (rankMin totals999)
  List.zipWith
    (fun (r : MidRow) (p : Nat) =>
      { place := placeStr places p, name := r.name,
        total := fmtScore (r.totalN.getD 999), rd := fmtScore (r.rdN.getD 999),
        holeScores := r.holes } : MidRow → Nat → StandingsRow)
    sorted places

/-- `get_score_midround` (lines 203-268): build the pre-sort table, sort it
(by `Total` alone for `H = 0`, else by `Total`, `Rd`, `Name`; modelled with a
stable sort, one of the orders pandas' unspecified tie-breaking admits), then
rank and format.  The second component is the caller's player table as
mutated by `add_hole_status` and `get_start_scores`. -/
def get_score_midround (player_df : List PlayerRec) (hole_num : Nat)
    (par_values : List Int) : List StandingsRow × List PlayerRec :=
  let m := midTable player_df hole_num par_values
  let sorted :=
    if hole_num = 0 then m.1.insertionSort totalRel else m.1.insertionSort midRel
  (formatStandings sorted, m.2)

/-- One player's worth of tokens in a round section, as `parse_player_data`
actually consumes them: placement, an optional purely-numeric movement token,
the name, the score token(s) (one for the first round, two otherwise), one
further token that the code steps over without storing, the 18 hole scores,
and the rating pair. -/
structure RecordBlock where
  place : String
  movement : Option String
  name : String
  scores : List String
  skipped : String
  holes : List String
  ratingA : String
  ratingB : String
deriving DecidableEq, Repr

/-- The flat token stream of one record block. -/
def blockTokens (b : RecordBlock) : List String :=
  b.place :: (b.movement.toList ++ b.name :: b.scores ++ b.skipped :: b.holes
    ++ [b.ratingA, b.ratingB])

/-- A block is well formed for a round when a present movement token is purely
numeric, the name token is not (so it is not mistaken for a movement token),
the number of score tokens matches the round kind, and there are 18 hole
scores. -/
def WFBlock (is_first_round : Bool) (b : RecordBlock) : Prop :=
  b.movement.all is_place_difference = true ∧
  is_place_difference b.name = false ∧
  b.scores.length = (if is_first_round then 1 else 2) ∧
  b.holes.length = 18

instance (f : Bool) (b : RecordBlock) : Decidable (WFBlock f b) := by
  unfold WFBlock; infer_instance

/-- The row `parse_player_data` emits for a well-formed block. -/
def recordOf (is_first_round : Bool) (b : RecordBlock) : PlayerRec :=
  { place := b.place, name := b.name,
    totalScore := .str (b.scores.getD 0 ""),
    roundScore := .str (if is_first_round then b.scores.getD 0 "" else b.scores.getD 1 ""),
    holeScores := b.holes, rating := b.ratingB }

/-- The per-record consumption contract exactly as the claim under test (and
spec section 4.4) states it, for comparison with `consumeRecord`: placement;
optional purely-numeric movement token, discarded; name; for the first round
one score token used as both total and round, otherwise total then round;
exactly 18 hole-score tokens; two rating tokens of which the second is
retained — and no other tokens. -/
def specConsumeRecord (is_first_round : Bool) : List String → Option (PlayerRec × List String)
  | [] => none
  | placement :: r1 =>
    let r2 := skipMovement r1
    match r2 with
    | [] => none
    | name :: r3 =>
      let scored : Option (String × String × List String) :=
        if is_first_round then
          match r3 with
          | s :: r4 => some (s, s, r4)
          | [] => none
        else
          match r3 with
          | t :: s :: r4 => some (t, s, r4)
          | _ => none
      match scored with
      | none => none
      | some (t, s, r4) =>
        if 18 ≤ r4.length then
          match r4.drop 18 with
          | _ :: rb :: rest =>
            some ({ place := placement, name := name, totalScore := .str t,
                    roundScore := .str s, holeScores := r4.take 18, rating := rb },
                  rest)
          | _ => none
        else none

/-- Integer reading of a hole-score token as the claim states it: a
non-numeric token is treated as score 999. -/
def specScoreInt (score : String) : Int :=
  match parseIntOpt score with
  | some n => n
  | none => 999

/-- The per-hole diff as the claim states it: score (999 when unreadable)
minus par. -/
def specHoleDiff (score : String) (par : Int) : Int :=
  specScoreInt score - par

/-- The per-hole label of the amended claim C3: the fixed diff table with the
code's "DBL BOGEY" / "TRPL BOGEY" / "4x BOGEY" / "5x BOGEY" spellings, the
generic "{diff}x BOGEY" outside the table, and the hole-in-one override for a
diff of -2 on a par 3 or -3 on a par 4. -/
def specHoleLabel (score : String) (par : Int) : String :=
  let diff := specHoleDiff score par
  if diff = -2 ∧ par = 3 then "HOLE IN ONE"
  else if diff = -3 ∧ par = 4 then "HOLE IN ONE"
  else if diff = -4 then "CONDOR"
  else if diff = -3 then "ALBATROSS"
  else if diff = -2 then "EAGLE"
  else if diff = -1 then "BIRDIE"
  else if diff = 0 then "PAR"
  else if diff = 1 then "BOGEY"
  else if diff = 2 then "DBL BOGEY"
  else if diff = 3 then "TRPL BOGEY"
  else if diff = 4 then "4x BOGEY"
  else if diff = 5 then "5x BOGEY"
  else toString diff ++ "x BOGEY"

/-- The boundary-insertion rule exactly as the claim states it: a space is
inserted between each adjacent pair of a lowercase-class character and an
uppercase-class character (such pairs cannot overlap, so this pairwise rule
needs no scanning state). -/
def addSpaceSpecChars : List Char → List Char
  | [] => []
  | [c] => [c]
  | c1 :: c2 :: rest =>
    (if isLowerCz c1 && isUpperCz c2 then [c1, ' '] else [c1]) ++ addSpaceSpecChars (c2 :: rest)

/-! Helper lemmas about the record parser. -/

theorem skipMovement_length (l : List String) : (skipMovement l).length ≤ l.length := by
  cases l with
  | nil => simp [skipMovement]
  | cons t rest => simp only [skipMovement]; split <;> simp

theorem consumeRecord_rest_length {f : Bool} {l rest : List String} {r : PlayerRec}
    (h : consumeRecord f l = some (r, rest)) : rest.length < l.length := by
  cases l with
  | nil => simp [consumeRecord] at h
  | cons p r1 =>
    have hskip := skipMovement_length r1
    simp only [consumeRecord] at h
    generalize hr2 : skipMovement r1 = r2 at h hskip
    cases r2 with
    | nil => simp at h
    | cons name r2t =>
      cases f <;> simp only [Bool.false_eq_true, if_false, if_true] at h <;>
        (repeat' split at h) <;> (try simp at h) <;>
        (obtain ⟨-, hrest⟩ := h) <;> subst hrest <;>
        simp only [List.length_drop, List.length_cons] at * <;> omega

theorem consumeRecord_holes_length {f : Bool} {l rest : List String} {r : PlayerRec}
    (h : consumeRecord f l = some (r, rest)) : r.holeScores.length = 18 := by
  cases l with
  | nil => simp [consumeRecord] at h
  | cons p r1 =>
    simp only [consumeRecord] at h
    generalize hr2 : skipMovement r1 = r2 at h
    cases r2 with
    | nil => simp at h
    | cons name r2t =>
      cases f <;> simp only [Bool.false_eq_true, if_false, if_true] at h <;>
        (repeat' split at h) <;> (try simp at h) <;>
        (obtain ⟨hrec, -⟩ := h) <;> rename_i rating heq <;>
        (obtain ⟨hlt, -⟩ := List.getElem?_eq_some.mp heq) <;>
        (rw [← hrec]) <;>
        simp only [List.length_drop, List.length_cons, List.length_take] at * <;> omega

theorem parsePlayerAux_fuel_irrel {f : Bool} :
    ∀ (f1 f2 : Nat) (l : List String), l.length < f1 → l.length < f2 →
      parsePlayerAux f1 f l = parsePlayerAux f2 f l := by
  intro f1
  induction f1 using Nat.strong_induction_on with
  | _ f1 ih =>
    intro f2 l h1 h2
    match f1, f2 with
    | g1 + 1, g2 + 1 =>
      simp only [parsePlayerAux]
      cases hc : consumeRecord f l with
      | none => rfl
      | some pr =>
        obtain ⟨row, r5⟩ := pr
        have hlen : r5.length < l.length := consumeRecord_rest_length hc
        dsimp only
        rw [ih g1 (by omega) g2 r5 (by omega) (by omega)]

theorem parsePlayerAux_holes_length {f : Bool} :
    ∀ (fuel : Nat) (l : List String) (r : PlayerRec), r ∈ parsePlayerAux fuel f l →
      r.holeScores.length = 18 := by
  intro fuel
  induction fuel with
  | zero => intro l r h; simp [parsePlayerAux] at h
  | succ g ih =>
    intro l r h
    simp only [parsePlayerAux] at h
    cases hc : consumeRecord f l with
    | none => rw [hc] at h; simp at h
    | some pr =>
      obtain ⟨row, r5⟩ := pr
      rw [hc] at h
      rcases List.mem_cons.mp h with h | h
      · subst h; exact consumeRecord_holes_length hc
      · exact ih r5 r h

theorem consumeRecord_block {f : Bool} {b : RecordBlock} (hWF : WFBlock f b)
    (rest : List String) :
    consumeRecord f (blockTokens b ++ rest) = some (recordOf f b, rest) := by
  obtain ⟨hmov, hname, hsc, hh⟩ := hWF
  have hm2 : ∀ m, b.movement = some m → is_place_difference m = true := by
    intro m hm; rw [hm] at hmov; simpa using hmov
  have hskip : ∀ tail : List String, skipMovement (b.movement.toList ++ b.name :: tail)
      = b.name :: tail := by
    intro tail
    cases hm : b.movement with
    | none => simp [skipMovement, hname]
    | some m => simp [skipMovement, hm2 m hm]
  have ht : ∀ tl : List String, (b.holes ++ tl).take 18 = b.holes := fun tl => List.take_left' hh
  have hd : ∀ tl : List String, (b.holes ++ tl).drop 18 = tl := fun tl => List.drop_left' hh
  cases f
  · obtain ⟨t, s, hs⟩ := List.length_eq_two.mp (by simpa using hsc)
    have hbt : blockTokens b ++ rest
        = b.place :: (b.movement.toList ++ b.name ::
            (t :: s :: b.skipped :: (b.holes ++ b.ratingA :: b.ratingB :: rest))) := by
      simp [blockTokens, hs]
    rw [hbt]
    simp only [consumeRecord]
    rw [hskip]
    simp only [List.getElem?_cons_succ, List.getElem?_cons_zero, List.drop_succ_cons,
      List.drop_zero, ht, hd, Bool.false_eq_true, if_false]
    simp [recordOf, hs]
  · obtain ⟨s, hs⟩ := List.length_eq_one.mp (by simpa using hsc)
    have hbt : blockTokens b ++ rest
        = b.place :: (b.movement.toList ++ b.name ::
            (s :: b.skipped :: (b.holes ++ b.ratingA :: b.ratingB :: rest))) := by
      simp [blockTokens, hs]
    rw [hbt]
    simp only [consumeRecord]
    rw [hskip]
    simp only [List.getElem?_cons_succ, List.getElem?_cons_zero, List.drop_succ_cons,
      List.drop_zero, ht, hd, if_true]
    simp [recordOf, hs]

theorem parse_player_data_block {f : Bool} {b : RecordBlock} (hWF : WFBlock f b)
    (rest : List String) :
    parse_player_data (blockTokens b ++ rest) f = recordOf f b :: parse_player_data rest f := by
  unfold parse_player_data
  have hlen : rest.length < (blockTokens b ++ rest).length := by
    simp only [List.length_append, blockTokens, List.length_cons]
    omega
  have e1 : parsePlayerAux ((blockTokens b ++ rest).length + 1) f (blockTokens b ++ rest)
      = recordOf f b :: parsePlayerAux ((blockTokens b ++ rest).length) f rest := by
    simp only [parsePlayerAux, consumeRecord_block hWF]
  rw [e1, parsePlayerAux_fuel_irrel ((blockTokens b ++ rest).length) (rest.length + 1) rest
    hlen (by omega)]

theorem parse_player_data_join {f : Bool} :
    ∀ (blocks : List RecordBlock), (∀ b ∈ blocks, WFBlock f b) →
      parse_player_data (blocks.map blockTokens).flatten f = blocks.map (recordOf f) := by
  intro blocks
  induction blocks with
  | nil => intro _; rfl
  | cons b bs ih =>
    intro hwf
    simp only [List.map_cons, List.flatten_cons]
    rw [parse_player_data_block (hwf b (by simp))]
    rw [ih (fun x hx => hwf x (by simp [hx]))]

/-- C1 (amended): per emitted record, `parse_player_data` consumes exactly one
placement token, an optional purely-numeric movement token (discarded), one
name token, one score token for the first round (used as both total and round
score) or total-then-round for later rounds, then one further token that is
stepped over and discarded, then 18 hole-score tokens stored verbatim in
order, then 2 rating tokens of which only the second is retained — and no
other tokens: on a well-formed block followed by any remainder, it emits that
record and continues exactly at the remainder. -/
theorem C1_record_consumption (f : Bool) (b : RecordBlock) (rest : List String)
    (hWF : WFBlock f b) :
    parse_player_data (blockTokens b ++ rest) f = recordOf f b :: parse_player_data rest f :=
  parse_player_data_block hWF rest

/-- C1 witness: the amended per-record contract at a concrete first-round
block followed by a leftover token. -/
theorem C1_record_consumption_witness :
    WFBlock true ⟨"1", some "2", "PetrNovak", ["-3"], "17",
      ["3", "3", "3", "3", "3", "3", "3", "3", "3", "3", "3", "3", "3", "3", "3", "3", "3", "3"],
      "950", "960"⟩ ∧
    parse_player_data
      (blockTokens ⟨"1", some "2", "PetrNovak", ["-3"], "17",
        ["3", "3", "3", "3", "3", "3", "3", "3", "3", "3", "3", "3", "3", "3", "3", "3", "3", "3"],
        "950", "960"⟩ ++ ["leftover"]) true
      = recordOf true ⟨"1", some "2", "PetrNovak", ["-3"], "17",
          ["3", "3", "3", "3", "3", "3", "3", "3", "3", "3", "3", "3", "3", "3", "3", "3", "3", "3"],
          "950", "960"⟩ :: parse_player_data ["leftover"] true :=
  ⟨by decide,
   C1_record_consumption true ⟨"1", some "2", "PetrNovak", ["-3"], "17",
     ["3", "3", "3", "3", "3", "3", "3", "3", "3", "3", "3", "3", "3", "3", "3", "3", "3", "3"],
     "950", "960"⟩ ["leftover"] (by decide)⟩

/-- C1 counterexample: a token stream that is exactly one record under the
claimed consumption contract (23 tokens for a first-round record, with no
movement token) — the contract as claimed parses it to one complete record
consuming everything, but `parse_player_data` emits no record at all, because
the code steps over one additional token between the score and the hole
scores. -/
theorem C1_cx :
    specConsumeRecord true
      ["1", "Nm", "-3", "h1", "h2", "h3", "h4", "h5", "h6", "h7", "h8", "h9", "h10",
       "h11", "h12", "h13", "h14", "h15", "h16", "h17", "h18", "r1", "r2"]
      = some ({ place := "1", name := "Nm", totalScore := .str "-3", roundScore := .str "-3",
                holeScores := ["h1", "h2", "h3", "h4", "h5", "h6", "h7", "h8", "h9", "h10",
                  "h11", "h12", "h13", "h14", "h15", "h16", "h17", "h18"],
                rating := "r2" }, []) ∧
    parse_player_data
      ["1", "Nm", "-3", "h1", "h2", "h3", "h4", "h5", "h6", "h7", "h8", "h9", "h10",
       "h11", "h12", "h13", "h14", "h15", "h16", "h17", "h18", "r1", "r2"] true = [] :=
  ⟨by decide, by decide⟩

/-- C6 (confirmed): on a round section consisting of N complete player
records over an 18-hole course, `parse_player_data` emits exactly N records,
namely one per block; and unconditionally — for every token stream, including
those that run out mid-record — every emitted record has exactly 18 hole
scores. -/
theorem C6_record_count (f : Bool) (blocks : List RecordBlock)
    (hWF : ∀ b ∈ blocks, WFBlock f b) :
    parse_player_data (blocks.map blockTokens).flatten f = blocks.map (recordOf f) ∧
    (parse_player_data (blocks.map blockTokens).flatten f).length = blocks.length ∧
    (∀ (content : List String) (g : Bool) (r : PlayerRec),
        r ∈ parse_player_data content g → r.holeScores.length = 18) := by
  refine ⟨parse_player_data_join blocks hWF, ?_, ?_⟩
  · rw [parse_player_data_join blocks hWF, List.length_map]
  · intro content g r h
    exact parsePlayerAux_holes_length _ _ r h

/-- C6 witness: a two-player later-round section parses to exactly two
records, each with 18 hole scores. -/
theorem C6_record_count_witness :
    (∀ b ∈ ([⟨"1", none, "Aa", ["-3", "-1"], "17",
        ["3", "3", "3", "3", "3", "3", "3", "3", "3", "3", "3", "3", "3", "3", "3", "3", "3", "3"],
        "950", "960"⟩,
      ⟨"2", some "1", "Bb", ["-2", "E"], "17",
        ["4", "4", "4", "4", "4", "4", "4", "4", "4", "4", "4", "4", "4", "4", "4", "4", "4", "4"],
        "940", "930"⟩] : List RecordBlock), WFBlock false b) ∧
    (parse_player_data (([⟨"1", none, "Aa", ["-3", "-1"], "17",
        ["3", "3", "3", "3", "3", "3", "3", "3", "3", "3", "3", "3", "3", "3", "3", "3", "3", "3"],
        "950", "960"⟩,
      ⟨"2", some "1", "Bb", ["-2", "E"], "17",
        ["4", "4", "4", "4", "4", "4", "4", "4", "4", "4", "4", "4", "4", "4", "4", "4", "4", "4"],
        "940", "930"⟩] : List RecordBlock).map blockTokens).flatten false).length = 2 := by
  refine ⟨by decide, ?_⟩
  rw [(C6_record_count false _ (by decide)).1]
  rfl

/-! Helper lemmas about `locate_line` and the round scanner. -/

theorem locate_line_lt_length {l : List String} {kw : String} {i : Nat}
    (h : locate_line l kw = some i) : i < l.length := by
  induction l generalizing i with
  | nil => simp [locate_line] at h
  | cons a l ih =>
    simp only [locate_line] at h
    split at h
    · cases h; simp
    · cases hr : locate_line l kw with
      | none => rw [hr] at h; simp at h
      | some j =>
        rw [hr] at h
        simp at h
        subst h
        have := ih hr
        simp only [List.length_cons]
        omega

theorem parseAllAux_error_msg :
    ∀ (fuel : Nat) (content : List String) (start rp : Nat) (e : String),
      parseAllAux fuel content start rp = .error e →
      e = "End of player data not found for one of the rounds" ∨ e = "KeyError: Name" := by
  intro fuel
  induction fuel with
  | zero => intro content start rp e h; simp [parseAllAux] at h
  | succ g ih =>
    intro content start rp e h
    simp only [parseAllAux] at h
    split at h
    · split at h
      · simp at h
      · split at h
        · simp only [Except.error.injEq] at h
          exact Or.inl h.symm
        · split at h
          · simp only [Except.error.injEq] at h
            exact Or.inr h.symm
          · split at h
            · simp at h
            · rename_i e2 herr
              simp only [Except.error.injEq] at h
              subst h
              exact ih _ _ _ _ herr
    · simp at h

/-- C4 (amended): `parse_all_player_data` raises its structural error exactly
for a located "ALL PLAYERS" marker with no following "COLOR ACCESSIBILITY"
marker; when no "ALL PLAYERS" marker exists the scan ends normally (with no
rounds); separately, a round section that parses to zero player records makes
the `round_df["Name"]` access on the column-less empty DataFrame raise a
(non-structural) `KeyError` — and these two are the only errors the function
can produce. -/
theorem C4_structure_errors (content : List String) :
    (locate_line content "ALL PLAYERS" = none → parse_all_player_data content = .ok []) ∧
    (∀ i, locate_line content "ALL PLAYERS" = some i →
      locate_line (content.drop (i + 1)) "COLOR ACCESSIBILITY" = none →
      parse_all_player_data content
        = .error "End of player data not found for one of the rounds") ∧
    (∀ i rel, locate_line content "ALL PLAYERS" = some i →
      locate_line (content.drop (i + 1)) "COLOR ACCESSIBILITY" = some rel →
      parse_player_data ((content.drop (i + 1)).take rel) true = [] →
      parse_all_player_data content = .error "KeyError: Name") ∧
    (∀ e, parse_all_player_data content = .error e →
      e = "End of player data not found for one of the rounds" ∨ e = "KeyError: Name") := by
  refine ⟨?_, ?_, ?_, fun e h => parseAllAux_error_msg _ _ _ _ e h⟩
  · intro h
    unfold parse_all_player_data
    simp only [parseAllAux]
    split
    · rw [List.drop_zero, h]
    · rfl
  · intro i hAP hCA
    have hi : i < content.length := locate_line_lt_length hAP
    unfold parse_all_player_data
    simp only [parseAllAux]
    rw [if_pos (by omega), List.drop_zero, hAP]
    simp only [Nat.zero_add]
    rw [hCA]
  · intro i rel hAP hCA hempty
    have hi : i < content.length := locate_line_lt_length hAP
    unfold parse_all_player_data
    simp only [parseAllAux]
    rw [if_pos (by omega), List.drop_zero, hAP]
    simp only [Nat.zero_add]
    rw [hCA]
    dsimp only
    rw [show ((0 : Nat) == 0) = true from rfl, hempty]
    rfl

/-- C4 witness: an input with no "ALL PLAYERS" line parses to no rounds
without error; an input whose "ALL PLAYERS" line has no following
"COLOR ACCESSIBILITY" line produces the structural error; and an empty round
section (zero records between the two markers) produces the `KeyError`. -/
theorem C4_structure_errors_witness :
    locate_line ["x"] "ALL PLAYERS" = none ∧
    parse_all_player_data ["x"] = .ok [] ∧
    locate_line ["ALL PLAYERS", "y"] "ALL PLAYERS" = some 0 ∧
    locate_line (["ALL PLAYERS", "y"].drop 1) "COLOR ACCESSIBILITY" = none ∧
    parse_all_player_data ["ALL PLAYERS", "y"]
      = .error "End of player data not found for one of the rounds" ∧
    locate_line ["ALL PLAYERS", "COLOR ACCESSIBILITY"] "ALL PLAYERS" = some 0 ∧
    locate_line (["ALL PLAYERS", "COLOR ACCESSIBILITY"].drop 1) "COLOR ACCESSIBILITY"
      = some 0 ∧
    parse_player_data ((["ALL PLAYERS", "COLOR ACCESSIBILITY"].drop 1).take 0) true = [] ∧
    parse_all_player_data ["ALL PLAYERS", "COLOR ACCESSIBILITY"]
      = .error "KeyError: Name" :=
  ⟨by decide, (C4_structure_errors ["x"]).1 (by decide), by decide, by decide,
   (C4_structure_errors ["ALL PLAYERS", "y"]).2.1 0 (by decide) (by decide),
   by decide, by decide, by decide,
   (C4_structure_errors ["ALL PLAYERS", "COLOR ACCESSIBILITY"]).2.2.1 0 0
     (by decide) (by decide) (by decide)⟩

/-- C4 counterexample: the claim also requires a `StructureNotFoundError`
when no "ALL PLAYERS" marker is found, but the code just stops scanning and
returns the (empty) list of rounds. -/
theorem C4_cx :
    locate_line ["x"] "ALL PLAYERS" = none ∧ parse_all_player_data ["x"] = .ok [] :=
  ⟨by decide, rfl⟩

/-- C5 (code bug): with one or two leftover tokens past the last complete
(hole, length, par) triplet, the partially appended columns have unequal
lengths and the `pd.DataFrame` construction raises, instead of returning the
recovered triplets; with no leftover tokens the lenient truncation works as
the claim describes. -/
theorem C5_truncation_eval :
    parse_course_info ["Thru", "1", "100", "3", "2"]
      = .error "All arrays must be of the same length" ∧
    parse_course_info ["Thru", "1", "100", "3", "2", "120"]
      = .error "All arrays must be of the same length" ∧
    parse_course_info ["Thru", "1", "100", "3"] = .ok (["1"], ["100"], ["3"]) :=
  ⟨rfl, rfl, rfl⟩

/-- C10 (confirmed): when the first line containing "TIER" (or, failing that,
"MAJOR") is among the last three lines, `parse_tournament_details` does not
raise: it returns the fewer-than-three lines that follow the marker. -/
theorem C10_short_details (content : List String) (i : Nat)
    (hloc : locate_line content "TIER" = some i ∨
      (locate_line content "TIER" = none ∧ locate_line content "MAJOR" = some i))
    (hshort : content.length ≤ i + 3) :
    parse_tournament_details content = .ok (content.drop (i + 1)) ∧
    (content.drop (i + 1)).length < 3 := by
  have hi : i < content.length := by
    rcases hloc with h | ⟨-, h⟩ <;> exact locate_line_lt_length h
  have hlen : (content.drop (i + 1)).length < 3 := by
    simp only [List.length_drop]
    omega
  refine ⟨?_, hlen⟩
  have htake : (content.drop (i + 1)).take 3 = content.drop (i + 1) :=
    List.take_of_length_le (by omega)
  unfold parse_tournament_details
  rcases hloc with h | ⟨h1, h2⟩
  · rw [h]
    dsimp only
    rw [htake]
  · rw [h1, h2]
    dsimp only
    rw [htake]

/-- C10 witness: a marker on the antepenultimate line yields the two
remaining lines without an error. -/
theorem C10_short_details_witness :
    (locate_line ["x TIER y", "name", "date"] "TIER" = some 0 ∨
      (locate_line ["x TIER y", "name", "date"] "TIER" = none ∧
        locate_line ["x TIER y", "name", "date"] "MAJOR" = some 0)) ∧
    (["x TIER y", "name", "date"] : List String).length ≤ 0 + 3 ∧
    parse_tournament_details ["x TIER y", "name", "date"] = .ok ["name", "date"] ∧
    ((["x TIER y", "name", "date"] : List String).drop (0 + 1)).length < 3 := by
  refine ⟨Or.inl (by decide), by decide, ?_, ?_⟩
  · exact (C10_short_details ["x TIER y", "name", "date"] 0 (Or.inl (by decide)) (by decide)).1
  · exact (C10_short_details ["x TIER y", "name", "date"] 0 (Or.inl (by decide)) (by decide)).2

/-! Helper lemmas about the hole labelling. -/

theorem scoreIntOf_eq_spec (s : String) : scoreIntOf s = specScoreInt s := by
  unfold scoreIntOf specScoreInt
  cases parseIntOpt s <;> rfl

theorem lookup_score_map (d : Int) :
    (score_map.lookup d).getD (toString d ++ "x BOGEY") =
      if d = -4 then "CONDOR" else if d = -3 then "ALBATROSS" else if d = -2 then "EAGLE"
      else if d = -1 then "BIRDIE" else if d = 0 then "PAR" else if d = 1 then "BOGEY"
      else if d = 2 then "DBL BOGEY" else if d = 3 then "TRPL BOGEY"
      else if d = 4 then "4x BOGEY" else if d = 5 then "5x BOGEY"
      else toString d ++ "x BOGEY" := by
  split_ifs with h1 h2 h3 h4 h5 h6 h7 h8 h9 h10
  · subst h1; rfl
  · subst h2; rfl
  · subst h3; rfl
  · subst h4; rfl
  · subst h5; rfl
  · subst h6; rfl
  · subst h7; rfl
  · subst h8; rfl
  · subst h9; rfl
  · subst h10; rfl
  · have hnone : score_map.lookup d = none := by
      have e1 : (d == -4) = false := beq_eq_false_iff_ne.mpr h1
      have e2 : (d == -3) = false := beq_eq_false_iff_ne.mpr h2
      have e3 : (d == -2) = false := beq_eq_false_iff_ne.mpr h3
      have e4 : (d == -1) = false := beq_eq_false_iff_ne.mpr h4
      have e5 : (d == 0) = false := beq_eq_false_iff_ne.mpr h5
      have e6 : (d == 1) = false := beq_eq_false_iff_ne.mpr h6
      have e7 : (d == 2) = false := beq_eq_false_iff_ne.mpr h7
      have e8 : (d == 3) = false := beq_eq_false_iff_ne.mpr h8
      have e9 : (d == 4) = false := beq_eq_false_iff_ne.mpr h9
      have e10 : (d == 5) = false := beq_eq_false_iff_ne.mpr h10
      simp [score_map, List.lookup, e1, e2, e3, e4, e5, e6, e7, e8, e9, e10]
    rw [hnone]
    rfl

theorem holeStatusOf_eq_spec (s : String) (p : Int) :
    holeStatusOf (scoreIntOf s) p = specHoleLabel s p := by
  unfold holeStatusOf specHoleLabel specHoleDiff
  rw [scoreIntOf_eq_spec]
  generalize specScoreInt s - p = d
  dsimp only
  rw [lookup_score_map]
  by_cases hio : (d = -2 ∧ p = 3) ∨ (d = -3 ∧ p = 4)
  · rw [if_pos hio]
    rcases hio with ⟨h1, h2⟩ | ⟨h1, h2⟩ <;> subst h1 <;> subst h2 <;> rfl
  · rw [if_neg hio, if_neg (fun h => hio (Or.inl h)), if_neg (fun h => hio (Or.inr h))]

/-- C3 (amended): `add_hole_status` labels every hole of every record by
diff = score − par through exactly the table {-4: CONDOR, -3: ALBATROSS,
-2: EAGLE, -1: BIRDIE, 0: PAR, 1: BOGEY, 2: DBL BOGEY, 3: TRPL BOGEY,
4: 4x BOGEY, 5: 5x BOGEY}, any diff outside the table as "{diff}x BOGEY",
with the "HOLE IN ONE" override for a diff of -2 on a par 3 or -3 on a par 4,
and a non-numeric score token treated as score 999 before computing diff. -/
theorem C3_hole_labels (df : List PlayerRec) (pars : List Int) (r : PlayerRec)
    (hr : r ∈ add_hole_status df pars) :
    r.holeDiff = some (List.zipWith specHoleDiff r.holeScores pars) ∧
    r.holeStatus = some (List.zipWith specHoleLabel r.holeScores pars) := by
  obtain ⟨r0, hr0, rfl⟩ := List.mem_map.mp hr
  have hdiff : (fun (s : String) (p : Int) => scoreIntOf s - p) = specHoleDiff := by
    funext s p
    simp [specHoleDiff, scoreIntOf_eq_spec]
  have hlab : (fun (s : String) (p : Int) => holeStatusOf (scoreIntOf s) p) = specHoleLabel := by
    funext s p
    exact holeStatusOf_eq_spec s p
  constructor
  · show some (List.zipWith (fun s p => scoreIntOf s - p) r0.holeScores pars) = _
    rw [hdiff]
  · show some (List.zipWith (fun s p => holeStatusOf (scoreIntOf s) p) r0.holeScores pars) = _
    rw [hlab]

/-- C3 witness: a record scoring 6 on a par 4 and an unreadable token on the
second par 4 receives diffs [2, 995] and labels ["DBL BOGEY", "995x BOGEY"]. -/
theorem C3_hole_labels_witness :
    ({ place := "1", name := "A", totalScore := SNum.str "E", roundScore := SNum.str "E",
       holeScores := ["6", "X"], rating := "900", holeDiff := some [2, 995],
       holeStatus := some ["DBL BOGEY", "995x BOGEY"] } : PlayerRec) ∈
      add_hole_status
        [{ place := "1", name := "A", totalScore := SNum.str "E",
           roundScore := SNum.str "E", holeScores := ["6", "X"], rating := "900" }] [4, 4] ∧
    (({ place := "1", name := "A", totalScore := SNum.str "E", roundScore := SNum.str "E",
        holeScores := ["6", "X"], rating := "900", holeDiff := some [2, 995],
        holeStatus := some ["DBL BOGEY", "995x BOGEY"] } : PlayerRec).holeDiff
      = some (List.zipWith specHoleDiff ["6", "X"] [4, 4]) ∧
     ({ place := "1", name := "A", totalScore := SNum.str "E", roundScore := SNum.str "E",
        holeScores := ["6", "X"], rating := "900", holeDiff := some [2, 995],
        holeStatus := some ["DBL BOGEY", "995x BOGEY"] } : PlayerRec).holeStatus
      = some (List.zipWith specHoleLabel ["6", "X"] [4, 4])) :=
  ⟨by decide,
   C3_hole_labels
     [{ place := "1", name := "A", totalScore := SNum.str "E",
        roundScore := SNum.str "E", holeScores := ["6", "X"], rating := "900" }] [4, 4]
     { place := "1", name := "A", totalScore := SNum.str "E", roundScore := SNum.str "E",
       holeScores := ["6", "X"], rating := "900", holeDiff := some [2, 995],
       holeStatus := some ["DBL BOGEY", "995x BOGEY"] } (by decide)⟩

/-- C3 counterexample: the claimed table spells the diff-2 label
"DOUBLE BOGEY", but the code stores "DBL BOGEY" (likewise TRPL/4x/5x for
diffs 3, 4, 5): a score of 6 on a par 4 is labelled "DBL BOGEY". -/
theorem C3_cx :
    (add_hole_status
      [{ place := "1", name := "A", totalScore := SNum.str "E", roundScore := SNum.str "E",
         holeScores := ["6"], rating := "900" }] [4]).map PlayerRec.holeStatus
      = [some ["DBL BOGEY"]] ∧
    ("DBL BOGEY" : String) ≠ "DOUBLE BOGEY" ∧
    holeStatusOf 6 3 = "TRPL BOGEY" ∧ ("TRPL BOGEY" : String) ≠ "TRIPLE BOGEY" ∧
    holeStatusOf 8 4 = "4x BOGEY" ∧ ("4x BOGEY" : String) ≠ "QUADRUPLE BOGEY" ∧
    holeStatusOf 9 4 = "5x BOGEY" ∧ ("5x BOGEY" : String) ≠ "QUINTUPLE BOGEY" := by
  refine ⟨by decide, by decide, by decide, by decide, by decide, by decide, by decide, by decide⟩

/-! Helper lemmas about the name normalizer. -/

theorem isLowerCz_eq_false_of_isUpperCz {c : Char} (h : isUpperCz c = true) :
    isLowerCz c = false := by
  rw [Bool.eq_false_iff]
  intro hl
  simp only [isUpperCz, isLowerCz, Bool.or_eq_true, Bool.and_eq_true, decide_eq_true_eq,
    beq_iff_eq] at h hl
  omega

theorem addSpaceSpecChars_upper_head {c : Char} (h : isUpperCz c = true) (rest : List Char) :
    addSpaceSpecChars (c :: rest) = c :: addSpaceSpecChars rest := by
  cases rest with
  | nil => rfl
  | cons d rest2 =>
    simp [addSpaceSpecChars, isLowerCz_eq_false_of_isUpperCz h]

theorem addSpaceChars_eq_spec : ∀ l : List Char, addSpaceChars l = addSpaceSpecChars l := by
  intro l
  induction l using addSpaceChars.induct with
  | case1 => rfl
  | case2 c => rfl
  | case3 c1 c2 rest hcond ih =>
    have hup : isUpperCz c2 = true := by
      revert hcond
      cases isLowerCz c1 <;> cases isUpperCz c2 <;> simp
    simp only [addSpaceChars, if_pos hcond, addSpaceSpecChars, if_pos hcond]
    rw [addSpaceSpecChars_upper_head hup rest, ih]
    rfl
  | case4 c1 c2 rest hcond ih =>
    simp only [addSpaceChars, if_neg hcond, addSpaceSpecChars, if_neg hcond]
    rw [ih]
    rfl

/-- C9 (confirmed): `add_space_to_name` inserts a space exactly between each
lowercase-class letter (ASCII lowercase plus the locale's diacritic lowercase
letters) and an immediately following uppercase-class letter — equivalently,
the left-to-right non-overlapping scan coincides with the pairwise insertion
rule — and in particular "PetrNovák" maps to "Petr Novák" and "JiříČervenka"
maps to "Jiří Červenka". -/
theorem C9_space_insertion :
    (∀ s : String, add_space_to_name s = ⟨addSpaceSpecChars s.data⟩) ∧
    add_space_to_name "PetrNovák" = "Petr Novák" ∧
    add_space_to_name "JiříČervenka" = "Jiří Červenka" :=
  ⟨fun s => congrArg String.mk (addSpaceChars_eq_spec s.data), by decide, by decide⟩

/-! Helper lemmas about the standings computation. -/

theorem midTable_mut (df : List PlayerRec) (pars1 pars2 : List Int) (h1 h2 : Nat) :
    (midTable ((midTable df h1 pars1).2) h2 pars2).1 = (midTable df h2 pars2).1 := by
  unfold midTable get_start_scores add_hole_status
  simp only [List.map_map]
  rfl

/-- C8 (amended): `get_score_midround` mutates its input table in place
(`add_hole_status` adds the diff/status columns and `get_start_scores`
coerces the score columns to numeric), but the mutation is idempotent for the
standings computation: recomputing on the mutated table, at any other cutoff
and par table, returns exactly the standings of a fresh computation. -/
theorem C8_standings_recompute (df : List PlayerRec) (pars1 pars2 : List Int) (h1 h2 : Nat) :
    (get_score_midround ((get_score_midround df h1 pars1).2) h2 pars2).1
      = (get_score_midround df h2 pars2).1 := by
  have h := midTable_mut df pars1 pars2 h1 h2
  unfold get_score_midround
  dsimp only
  rw [h]

/-- C8 counterexample: computing standings changes the input table — the
claim that every field of every input record is identical before and after
the call is false (here the "E" total is coerced to the numeric cell 0 and
the diff/status/start columns are added). -/
theorem C8_cx :
    (get_score_midround
      [{ place := "1", name := "A", totalScore := SNum.str "E", roundScore := SNum.str "E",
         holeScores := ["3"], rating := "900" }] 0 [3]).2
      ≠ [{ place := "1", name := "A", totalScore := SNum.str "E", roundScore := SNum.str "E",
           holeScores := ["3"], rating := "900" }] := by decide

theorem optLE_total : ∀ a b : Option Int, optLE a b = true ∨ optLE b a = true := by
  intro a b
  cases a <;> cases b <;> simp [optLE] <;> omega

theorem optLE_trans : ∀ {a b c : Option Int}, optLE a b = true → optLE b c = true →
    optLE a c = true := by
  intro a b c h1 h2
  cases a <;> cases b <;> cases c <;> simp_all [optLE] <;> omega

theorem midTable_zero (df : List PlayerRec) (pars : List Int) :
    (midTable df 0 pars).1
      = df.map (fun r => (⟨r.name, startScoreOf r, some 0, []⟩ : MidRow)) := by
  unfold midTable get_start_scores add_hole_status
  simp only [List.map_map, if_pos rfl]
  rfl

theorem formatStandings_eq_map (sorted : List MidRow) :
    formatStandings sorted
      = sorted.map (fun r =>
          (⟨placeStr ((sorted.map (fun x => x.totalN.getD 999)).map
                (rankMin (sorted.map (fun x => x.totalN.getD 999))))
              (rankMin (sorted.map (fun x => x.totalN.getD 999)) (r.totalN.getD 999)),
            r.name, fmtScore (r.totalN.getD 999),
            fmtScore (r.rdN.getD 999), r.holes⟩ : StandingsRow)) := by
  unfold formatStandings
  dsimp only
  rw [List.map_map, List.zipWith_map_right, List.zipWith_same]
  rfl

theorem get_score_midround_rows_zero (df : List PlayerRec) (pars : List Int) :
    (get_score_midround df 0 pars).1
      = formatStandings ((midTable df 0 pars).1.insertionSort totalRel) := by
  unfold get_score_midround
  dsimp only
  rw [if_pos rfl]

theorem get_score_midround_rows_pos (df : List PlayerRec) (pars : List Int) {h : Nat}
    (hh : h ≠ 0) :
    (get_score_midround df h pars).1
      = formatStandings ((midTable df h pars).1.insertionSort midRel) := by
  unfold get_score_midround
  dsimp only
  rw [if_neg hh]

/-- C7 (confirmed): at cutoff 0 the standings rows all have empty hole-score
lists and `Rd` rendered "E"; the `Total` column is exactly the
`fmtScore`-image (0 ↦ "E", 999 ↦ "DNF", +N ↦ "+N", −N ↦ "-N") of the
players' pre-round start scores (coerced total minus round, "E" read as 0,
`NaN` filled with the 999 sentinel), listed in ascending start-score order
with unresolved (`NaN`) start scores last; and the (name, total) pairs are a
permutation of the per-player start scores, so each row's total is its own
player's start score. -/
theorem C7_cutoff_zero (df : List PlayerRec) (pars : List Int) :
    ((get_score_midround df 0 pars).1.map StandingsRow.holeScores
        = List.replicate df.length []) ∧
    ((get_score_midround df 0 pars).1.map StandingsRow.rd
        = List.replicate df.length "E") ∧
    (∃ keys : List (Option Int),
        keys.Pairwise (fun x y => optLE x y = true) ∧
        keys.Perm (df.map startScoreOf) ∧
        (get_score_midround df 0 pars).1.map StandingsRow.total
          = keys.map (fun s => fmtScore (s.getD 999))) ∧
    ((get_score_midround df 0 pars).1.map (fun row => (row.name, row.total))).Perm
      (df.map (fun r => (r.name, fmtScore ((startScoreOf r).getD 999)))) ∧
    fmtScore 0 = "E" ∧ fmtScore 999 = "DNF" ∧ fmtScore 7 = "+7" ∧ fmtScore (-4) = "-4" := by
  haveI : IsTotal MidRow totalRel := ⟨fun a b => optLE_total a.totalN b.totalN⟩
  haveI : IsTrans MidRow totalRel := ⟨fun a b c h1 h2 => optLE_trans h1 h2⟩
  have hmids := midTable_zero df pars
  have hperm : ((midTable df 0 pars).1.insertionSort totalRel).Perm (midTable df 0 pars).1 :=
    List.perm_insertionSort totalRel _
  have hsortedP : ((midTable df 0 pars).1.insertionSort totalRel).Pairwise totalRel :=
    List.sorted_insertionSort totalRel _
  have hrows : (get_score_midround df 0 pars).1
      = ((midTable df 0 pars).1.insertionSort totalRel).map (fun r =>
          (⟨placeStr ((((midTable df 0 pars).1.insertionSort totalRel).map
                  (fun x => x.totalN.getD 999)).map
                (rankMin (((midTable df 0 pars).1.insertionSort totalRel).map
                  (fun x => x.totalN.getD 999))))
              (rankMin (((midTable df 0 pars).1.insertionSort totalRel).map
                (fun x => x.totalN.getD 999)) (r.totalN.getD 999)),
            r.name, fmtScore (r.totalN.getD 999),
            fmtScore (r.rdN.getD 999), r.holes⟩ : StandingsRow)) := by
    rw [get_score_midround_rows_zero, formatStandings_eq_map]
  have hlen : ((midTable df 0 pars).1.insertionSort totalRel).length = df.length := by
    rw [hperm.length_eq, hmids, List.length_map]
  have hmem : ∀ r ∈ (midTable df 0 pars).1.insertionSort totalRel,
      r.rdN = some 0 ∧ r.holes = [] := by
    intro r hr
    have hr2 : r ∈ (midTable df 0 pars).1 := hperm.subset hr
    rw [hmids] at hr2
    obtain ⟨r0, -, rfl⟩ := List.mem_map.mp hr2
    exact ⟨rfl, rfl⟩
  refine ⟨?_, ?_, ?_, ?_, by decide, by decide, by decide, by decide⟩
  · rw [hrows, List.map_map]
    apply List.eq_replicate_iff.mpr
    refine ⟨by rw [List.length_map, hlen], ?_⟩
    intro b hb
    obtain ⟨r, hr, rfl⟩ := List.mem_map.mp hb
    exact (hmem r hr).2
  · rw [hrows, List.map_map]
    apply List.eq_replicate_iff.mpr
    refine ⟨by rw [List.length_map, hlen], ?_⟩
    intro b hb
    obtain ⟨r, hr, rfl⟩ := List.mem_map.mp hb
    show fmtScore (r.rdN.getD 999) = "E"
    rw [(hmem r hr).1]
    rfl
  · refine ⟨((midTable df 0 pars).1.insertionSort totalRel).map (fun r => r.totalN),
      ?_, ?_, ?_⟩
    · exact List.pairwise_map.mpr hsortedP
    · have hmap : (midTable df 0 pars).1.map (fun r : MidRow => r.totalN)
          = df.map startScoreOf := by
        rw [hmids, List.map_map]
        rfl
      have h2 := hperm.map (fun r : MidRow => r.totalN)
      rw [hmap] at h2
      exact h2
    · simp only [hrows, List.map_map]
      rfl
  · rw [hrows, List.map_map]
    have hmap : (midTable df 0 pars).1.map
          (fun r : MidRow => (r.name, fmtScore (r.totalN.getD 999)))
        = df.map (fun r => (r.name, fmtScore ((startScoreOf r).getD 999))) := by
      rw [hmids, List.map_map]
      rfl
    have h2 := hperm.map (fun r : MidRow => (r.name, fmtScore (r.totalN.getD 999)))
    rw [hmap] at h2
    exact h2

/-! Helper lemmas for the tie-ranking analysis (C2). -/

theorem charListLE_total : ∀ as bs : List Char,
    charListLE as bs = true ∨ charListLE bs as = true := by
  intro as
  induction as with
  | nil => intro bs; left; rfl
  | cons a as ih =>
    intro bs
    cases bs with
    | nil => right; rfl
    | cons b bs =>
      rcases ih bs with h | h <;> by_cases h1 : a.toNat < b.toNat <;>
        by_cases h2 : b.toNat < a.toNat <;> simp [charListLE, h1, h2, h]

theorem charListLE_trans : ∀ as bs cs : List Char,
    charListLE as bs = true → charListLE bs cs = true → charListLE as cs = true := by
  intro as
  induction as with
  | nil => intro bs cs h1 h2; rfl
  | cons a as ih =>
    intro bs cs h1 h2
    cases bs with
    | nil => simp [charListLE] at h1
    | cons b bs =>
      cases cs with
      | nil => simp [charListLE] at h2
      | cons c cs =>
        simp only [charListLE] at h1 h2 ⊢
        split_ifs at h1 h2 ⊢ <;>
          first
            | rfl
            | omega
            | exact ih bs cs h1 h2
            | simp_all

theorem strLE_total (a b : String) : strLE a b = true ∨ strLE b a = true :=
  charListLE_total a.data b.data

theorem strLE_trans {a b c : String} (h1 : strLE a b = true) (h2 : strLE b c = true) :
    strLE a c = true :=
  charListLE_trans a.data b.data c.data h1 h2

theorem optLT_trans {a b c : Option Int} (h1 : optLT a b = true) (h2 : optLT b c = true) :
    optLT a c = true := by
  cases a <;> cases b <;> cases c <;> simp_all [optLT] <;> omega

theorem optLT_tri (a b : Option Int) :
    optLT a b = true ∨ optLT b a = true ∨ a = b := by
  cases a <;> cases b <;> simp [optLT] <;> omega

theorem optLT_irrefl (a : Option Int) : optLT a a = false := by
  cases a <;> simp [optLT]

theorem optLT_asymm {a b : Option Int} (h : optLT a b = true) : optLT b a = false := by
  cases a <;> cases b <;> simp_all [optLT] <;> omega

theorem midLE_total (a b : MidRow) : midLE a b = true ∨ midLE b a = true := by
  unfold midLE
  rcases optLT_tri a.totalN b.totalN with h | h | h
  · left; simp [h]
  · right; simp [h]
  · rcases optLT_tri a.rdN b.rdN with h2 | h2 | h2
    · left; simp [h, h2]
    · right; simp [h, h2]
    · rcases strLE_total a.name b.name with h3 | h3
      · left; simp [h, h2, h3]
      · right; simp [h, h2, h3]

theorem midLE_trans {a b c : MidRow} (h1 : midLE a b = true) (h2 : midLE b c = true) :
    midLE a c = true := by
  unfold midLE at h1 h2 ⊢
  simp only [Bool.or_eq_true, Bool.and_eq_true, beq_iff_eq] at h1 h2 ⊢
  rcases h1 with h1 | ⟨he1, h1⟩
  · rcases h2 with h2 | ⟨he2, h2⟩
    · exact Or.inl (optLT_trans h1 h2)
    · rw [← he2]; exact Or.inl h1
  · rcases h2 with h2 | ⟨he2, h2⟩
    · rw [he1]; exact Or.inl h2
    · refine Or.inr ⟨he1.trans he2, ?_⟩
      rcases h1 with h1 | ⟨hr1, h1⟩
      · rcases h2 with h2 | ⟨hr2, h2⟩
        · exact Or.inl (optLT_trans h1 h2)
        · rw [← hr2]; exact Or.inl h1
      · rcases h2 with h2 | ⟨hr2, h2⟩
        · rw [hr1]; exact Or.inl h2
        · exact Or.inr ⟨hr1.trans hr2, strLE_trans h1 h2⟩


theorem countP_lt_of_mem {α : Type} {l : List α} {x : α} {p q : α → Bool}
    (hx : x ∈ l) (hmono : ∀ y ∈ l, p y = true → q y = true)
    (hqx : q x = true) (hpx : p x = false) : l.countP p < l.countP q := by
  induction l with
  | nil => simp at hx
  | cons a l ih =>
    rw [List.countP_cons, List.countP_cons]
    have hmono2 : ∀ y ∈ l, p y = true → q y = true :=
      fun y hy => hmono y (List.mem_cons_of_mem a hy)
    have hle : l.countP p ≤ l.countP q := List.countP_mono_left hmono2
    rcases List.mem_cons.mp hx with rfl | hx2
    · rw [hpx, hqx]
      simp only [Bool.false_eq_true, if_false, eq_self_iff_true, if_true]
      omega
    · have hlt := ih hx2 hmono2
      have hhead := hmono a (List.mem_cons_self a l)
      cases hp : p a
      · simp only [Bool.false_eq_true, if_false]
        omega
      · rw [hhead hp]
        simp only [eq_self_iff_true, if_true]
        omega

theorem countP_add_le {α : Type} (l : List α) (p s q : α → Bool)
    (hpq : ∀ x ∈ l, p x = true → q x = true)
    (hsq : ∀ x ∈ l, s x = true → q x = true)
    (hdisj : ∀ x ∈ l, ¬(p x = true ∧ s x = true)) :
    l.countP p + l.countP s ≤ l.countP q := by
  induction l with
  | nil => simp
  | cons a l ih =>
    rw [List.countP_cons, List.countP_cons, List.countP_cons]
    have hrec := ih (fun x hx => hpq x (List.mem_cons_of_mem a hx))
      (fun x hx => hsq x (List.mem_cons_of_mem a hx))
      (fun x hx => hdisj x (List.mem_cons_of_mem a hx))
    have h1 := hpq a (List.mem_cons_self a l)
    have h2 := hsq a (List.mem_cons_self a l)
    have h3 := hdisj a (List.mem_cons_self a l)
    cases hp : p a <;> cases hs : s a <;> cases hq : q a <;> simp_all <;> omega


theorem countP_congr_mem {α : Type} {p q : α → Bool} :
    ∀ (l : List α), (∀ x ∈ l, p x = q x) → l.countP p = l.countP q := by
  intro l h
  induction l with
  | nil => rfl
  | cons a l ih =>
    rw [List.countP_cons, List.countP_cons, h a (List.mem_cons_self a l),
      ih (fun x hx => h x (List.mem_cons_of_mem a hx))]

theorem rankMin_eq_iff {t9 : List Int} (hcnt : t9.countP (fun x => x == -3) = 3)
    {t : Int} (ht : t ∈ t9) :
    rankMin t9 t = 1 + t9.countP (fun x => decide (x < -3)) ↔ t = -3 := by
  unfold rankMin
  rw [show (t9.filter (fun x => decide (x < t))).length
      = t9.countP (fun x => decide (x < t)) from
    (List.countP_eq_length_filter (fun x => decide (x < t)) t9).symm]
  constructor
  · intro h
    by_contra hne
    rcases lt_trichotomy t (-3) with hlt | heq | hgt
    · have hstrict : t9.countP (fun x => decide (x < t))
          < t9.countP (fun x => decide (x < -3)) := by
        apply countP_lt_of_mem ht
        · intro y hy hp
          simp only [decide_eq_true_eq] at hp ⊢
          omega
        · simp only [decide_eq_true_eq]
          omega
        · simp only [decide_eq_false_iff_not]
          omega
      omega
    · exact hne heq
    · have h3 : t9.countP (fun x => decide (x < -3)) + t9.countP (fun x => x == -3)
          ≤ t9.countP (fun x => decide (x < t)) := by
        apply countP_add_le
        · intro x hx hp
          simp only [decide_eq_true_eq] at hp ⊢
          omega
        · intro x hx hs
          simp only [beq_iff_eq] at hs
          simp only [decide_eq_true_eq]
          omega
        · intro x hx hand
          obtain ⟨hp, hs⟩ := hand
          simp only [decide_eq_true_eq] at hp
          simp only [beq_iff_eq] at hs
          omega
      omega
  · intro h
    subst h
    rfl

theorem place_of_minus3 {t9 : List Int} (hcnt : t9.countP (fun x => x == -3) = 3) :
    placeStr (t9.map (rankMin t9)) (1 + t9.countP (fun x => decide (x < -3)))
      = "T" ++ toString (1 + t9.countP (fun x => decide (x < -3))) := by
  have hc : t9.countP ((fun q => q == 1 + t9.countP (fun x => decide (x < -3)))
        ∘ rankMin t9) = t9.countP (fun x => x == -3) := by
    apply countP_congr_mem
    intro x hx
    show (rankMin t9 x == 1 + t9.countP (fun y => decide (y < -3)))
      = (x == -3)
    by_cases he : rankMin t9 x = 1 + t9.countP (fun y => decide (y < -3))
    · rw [beq_iff_eq.mpr he, Eq.symm (beq_iff_eq.mpr ((rankMin_eq_iff hcnt hx).mp he))]
    · have hne2 : ¬(x = -3) := fun hx3 => he ((rankMin_eq_iff hcnt hx).mpr hx3)
      rw [beq_eq_false_iff_ne.mpr he, beq_eq_false_iff_ne.mpr hne2]
  have hlen : ((t9.map (rankMin t9)).filter
        (fun q => q == 1 + t9.countP (fun x => decide (x < -3)))).length = 3 := by
    rw [show ((t9.map (rankMin t9)).filter
          (fun q => q == 1 + t9.countP (fun x => decide (x < -3)))).length
        = (t9.map (rankMin t9)).countP
            (fun q => q == 1 + t9.countP (fun x => decide (x < -3))) from
      (List.countP_eq_length_filter _ _).symm]
    rw [List.countP_map, hc, hcnt]
  unfold placeStr
  rw [if_pos (by rw [hlen]; omega)]


theorem midRel_false_of_rd {x y : MidRow} (ht : x.totalN = some (-3))
    (ht2 : y.totalN = some (-3)) (hx : x.rdN = some (-1)) (hy : y.rdN = some (-2)) :
    ¬ midRel x y := by
  intro h
  unfold midRel midLE at h
  rw [ht, ht2, hx, hy] at h
  simp [optLT] at h

theorem formatStandings_tie (mids sorted : List MidRow)
    (hperm : sorted.Perm mids) (hsortP : sorted.Pairwise midRel)
    (a b c : MidRow)
    (ha : a ∈ mids) (hb : b ∈ mids) (hc : c ∈ mids)
    (hta : a.totalN = some (-3)) (htb : b.totalN = some (-3)) (htc : c.totalN = some (-3))
    (hra : a.rdN = some (-1)) (hrb : b.rdN = some (-1)) (hrc : c.rdN = some (-2))
    (hcount : mids.countP (fun r => r.totalN.getD 999 == -3) = 3)
    (hnd : (mids.map MidRow.name).Nodup) :
    (∀ (i j : Nat) (hi : i < (formatStandings sorted).length)
        (hj : j < (formatStandings sorted).length),
        ((formatStandings sorted).get ⟨i, hi⟩).name = c.name →
        (((formatStandings sorted).get ⟨j, hj⟩).name = a.name ∨
          ((formatStandings sorted).get ⟨j, hj⟩).name = b.name) →
        i < j) ∧
    (∀ row ∈ formatStandings sorted,
        row.name = a.name ∨ row.name = b.name ∨ row.name = c.name →
        row.place = "T" ++ toString (1 + mids.countP
          (fun r => decide (r.totalN.getD 999 < -3)))) := by
  have hout := formatStandings_eq_map sorted
  have hinj : ∀ x ∈ mids, ∀ y ∈ mids, MidRow.name x = MidRow.name y → x = y :=
    List.inj_on_of_nodup_map hnd
  have hca : c ≠ a := by intro h; rw [h, hra] at hrc; simp at hrc
  have hcb : c ≠ b := by intro h; rw [h, hrb] at hrc; simp at hrc
  constructor
  · rw [hout]
    intro i j hi hj h1 h2
    have hi2 : i < sorted.length := by simpa using hi
    have hj2 : j < sorted.length := by simpa using hj
    rw [List.get_eq_getElem, List.getElem_map] at h1
    rw [List.get_eq_getElem, List.getElem_map] at h2
    dsimp only at h1 h2
    have hsi : sorted[i] = c :=
      hinj _ (hperm.subset (List.getElem_mem hi2)) c hc h1
    by_contra hij
    have hji : j ≤ i := by omega
    rcases Nat.lt_or_ge j i with hlt | hge
    · have hrel := List.pairwise_iff_getElem.mp hsortP j i hj2 hi2 hlt
      rw [hsi] at hrel
      rcases h2 with h2 | h2
      · have hsj : sorted[j] = a :=
          hinj _ (hperm.subset (List.getElem_mem hj2)) a ha h2
        rw [hsj] at hrel
        exact midRel_false_of_rd hta htc hra hrc hrel
      · have hsj : sorted[j] = b :=
          hinj _ (hperm.subset (List.getElem_mem hj2)) b hb h2
        rw [hsj] at hrel
        exact midRel_false_of_rd htb htc hrb hrc hrel
    · have hij2 : i = j := by omega
      subst hij2
      rcases h2 with h2 | h2
      · have hsj : sorted[i] = a :=
          hinj _ (hperm.subset (List.getElem_mem hi2)) a ha h2
        exact hca (hsi ▸ hsj ▸ rfl)
      · have hsj : sorted[i] = b :=
          hinj _ (hperm.subset (List.getElem_mem hi2)) b hb h2
        exact hcb (hsi ▸ hsj ▸ rfl)
  · intro row hrow hname
    rw [hout] at hrow
    obtain ⟨r, hr, rfl⟩ := List.mem_map.mp hrow
    have hrmem : r ∈ mids := hperm.subset hr
    have hcases : r = a ∨ r = b ∨ r = c := by
      rcases hname with h | h | h
      · exact Or.inl (hinj r hrmem a ha h)
      · exact Or.inr (Or.inl (hinj r hrmem b hb h))
      · exact Or.inr (Or.inr (hinj r hrmem c hc h))
    have hrt : r.totalN = some (-3) := by
      rcases hcases with rfl | rfl | rfl <;> assumption
    have htc9 : (sorted.map (fun x => x.totalN.getD 999)).countP (fun x => x == -3) = 3 := by
      rw [List.countP_map]
      rw [hperm.countP_eq]
      exact hcount
    have hlt9 : (sorted.map (fun x => x.totalN.getD 999)).countP (fun x => decide (x < -3))
        = mids.countP (fun r => decide (r.totalN.getD 999 < -3)) := by
      rw [List.countP_map]
      exact hperm.countP_eq _
    have hmem3 : (-3 : Int) ∈ sorted.map (fun x => x.totalN.getD 999) := by
      have haS : a ∈ sorted := hperm.mem_iff.mpr ha
      exact List.mem_map.mpr ⟨a, haS, by rw [hta]; rfl⟩
    have hrank : rankMin (sorted.map (fun x => x.totalN.getD 999)) (-3)
        = 1 + (sorted.map (fun x => x.totalN.getD 999)).countP (fun x => decide (x < -3)) :=
      (rankMin_eq_iff htc9 hmem3).mpr rfl
    dsimp only
    rw [hrt]
    show placeStr _ (rankMin _ (-3)) = _
    rw [hrank, place_of_minus3 htc9, hlt9]


/-- C2 (amended): at a cutoff H > 0, when two players share Total = -3 with
Round-to-date = -1, a third player has Total = -3 with Round-to-date = -2,
and no other player has that Total (player names distinct), the third player
is ordered ahead of the other two; but since places are competition ("min")
ranks computed over Total alone, all three players share one place value —
one more than the number of players with a strictly lower Total — and,
being shared by three players, it is rendered with the "T" prefix for all
three of them (so the third player's place is not a bare numeral). -/
theorem C2_tie_ranking (df : List PlayerRec) (pars : List Int) (H : Nat) (hH : H ≠ 0)
    (a b c : MidRow)
    (ha : a ∈ (midTable df H pars).1) (hb : b ∈ (midTable df H pars).1)
    (hc : c ∈ (midTable df H pars).1)
    (hta : a.totalN = some (-3)) (htb : b.totalN = some (-3)) (htc : c.totalN = some (-3))
    (hra : a.rdN = some (-1)) (hrb : b.rdN = some (-1)) (hrc : c.rdN = some (-2))
    (hcount : (midTable df H pars).1.countP (fun r => r.totalN.getD 999 == -3) = 3)
    (hnd : ((midTable df H pars).1.map MidRow.name).Nodup)
    (_hab : a ≠ b) :
    (∀ (i j : Nat) (hi : i < (get_score_midround df H pars).1.length)
        (hj : j < (get_score_midround df H pars).1.length),
        ((get_score_midround df H pars).1.get ⟨i, hi⟩).name = c.name →
        (((get_score_midround df H pars).1.get ⟨j, hj⟩).name = a.name ∨
          ((get_score_midround df H pars).1.get ⟨j, hj⟩).name = b.name) →
        i < j) ∧
    (∀ row ∈ (get_score_midround df H pars).1,
        row.name = a.name ∨ row.name = b.name ∨ row.name = c.name →
        row.place = "T" ++ toString (1 + (midTable df H pars).1.countP
          (fun r => decide (r.totalN.getD 999 < -3)))) := by
  haveI : IsTotal MidRow midRel := ⟨fun x y => midLE_total x y⟩
  haveI : IsTrans MidRow midRel := ⟨fun x y z h1 h2 => midLE_trans h1 h2⟩
  rw [get_score_midround_rows_pos df pars hH]
  exact formatStandings_tie (midTable df H pars).1 _
    (List.perm_insertionSort midRel _) (List.sorted_insertionSort midRel _)
    a b c ha hb hc hta htb htc hra hrb hrc hcount hnd

/-- C2 witness: three players with totals -3 and rounds-to-date -1, -1, -2
at cutoff 2 on a two-hole par-5 course instantiate the amended claim; their
shared place is "T1" here since no player has a lower total. -/
theorem C2_tie_ranking_witness :
    ((2 : Nat) ≠ 0 ∧
     (⟨"Bob", some (-3), some (-1), ["4", "5"]⟩ : MidRow) ∈
       (midTable
         [{ place := "1", name := "Bob", totalScore := SNum.str "-3",
            roundScore := SNum.str "-1", holeScores := ["4", "5"], rating := "900" },
          { place := "1", name := "Cara", totalScore := SNum.str "-3",
            roundScore := SNum.str "-1", holeScores := ["4", "5"], rating := "900" },
          { place := "3", name := "Dan", totalScore := SNum.str "-3",
            roundScore := SNum.str "-2", holeScores := ["4", "4"], rating := "900" }] 2 [5, 5]).1 ∧
     (⟨"Cara", some (-3), some (-1), ["4", "5"]⟩ : MidRow) ∈
       (midTable
         [{ place := "1", name := "Bob", totalScore := SNum.str "-3",
            roundScore := SNum.str "-1", holeScores := ["4", "5"], rating := "900" },
          { place := "1", name := "Cara", totalScore := SNum.str "-3",
            roundScore := SNum.str "-1", holeScores := ["4", "5"], rating := "900" },
          { place := "3", name := "Dan", totalScore := SNum.str "-3",
            roundScore := SNum.str "-2", holeScores := ["4", "4"], rating := "900" }] 2 [5, 5]).1 ∧
     (⟨"Dan", some (-3), some (-2), ["4", "4"]⟩ : MidRow) ∈
       (midTable
         [{ place := "1", name := "Bob", totalScore := SNum.str "-3",
            roundScore := SNum.str "-1", holeScores := ["4", "5"], rating := "900" },
          { place := "1", name := "Cara", totalScore := SNum.str "-3",
            roundScore := SNum.str "-1", holeScores := ["4", "5"], rating := "900" },
          { place := "3", name := "Dan", totalScore := SNum.str "-3",
            roundScore := SNum.str "-2", holeScores := ["4", "4"], rating := "900" }] 2 [5, 5]).1 ∧
     (midTable
         [{ place := "1", name := "Bob", totalScore := SNum.str "-3",
            roundScore := SNum.str "-1", holeScores := ["4", "5"], rating := "900" },
          { place := "1", name := "Cara", totalScore := SNum.str "-3",
            roundScore := SNum.str "-1", holeScores := ["4", "5"], rating := "900" },
          { place := "3", name := "Dan", totalScore := SNum.str "-3",
            roundScore := SNum.str "-2", holeScores := ["4", "4"], rating := "900" }] 2 [5, 5]).1.countP
       (fun r => r.totalN.getD 999 == -3) = 3) ∧
    (∀ row ∈ (get_score_midround
         [{ place := "1", name := "Bob", totalScore := SNum.str "-3",
            roundScore := SNum.str "-1", holeScores := ["4", "5"], rating := "900" },
          { place := "1", name := "Cara", totalScore := SNum.str "-3",
            roundScore := SNum.str "-1", holeScores := ["4", "5"], rating := "900" },
          { place := "3", name := "Dan", totalScore := SNum.str "-3",
            roundScore := SNum.str "-2", holeScores := ["4", "4"], rating := "900" }] 2 [5, 5]).1,
        row.name = "Bob" ∨ row.name = "Cara" ∨ row.name = "Dan" →
        row.place = "T" ++ toString (1 + (midTable
         [{ place := "1", name := "Bob", totalScore := SNum.str "-3",
            roundScore := SNum.str "-1", holeScores := ["4", "5"], rating := "900" },
          { place := "1", name := "Cara", totalScore := SNum.str "-3",
            roundScore := SNum.str "-1", holeScores := ["4", "5"], rating := "900" },
          { place := "3", name := "Dan", totalScore := SNum.str "-3",
            roundScore := SNum.str "-2", holeScores := ["4", "4"], rating := "900" }] 2 [5, 5]).1.countP
          (fun r => decide (r.totalN.getD 999 < -3)))) :=
  ⟨⟨by decide, by decide, by decide, by decide, by decide⟩,
   (C2_tie_ranking
     [{ place := "1", name := "Bob", totalScore := SNum.str "-3",
        roundScore := SNum.str "-1", holeScores := ["4", "5"], rating := "900" },
      { place := "1", name := "Cara", totalScore := SNum.str "-3",
        roundScore := SNum.str "-1", holeScores := ["4", "5"], rating := "900" },
      { place := "3", name := "Dan", totalScore := SNum.str "-3",
        roundScore := SNum.str "-2", holeScores := ["4", "4"], rating := "900" }] [5, 5] 2
     (by decide)
     ⟨"Bob", some (-3), some (-1), ["4", "5"]⟩
     ⟨"Cara", some (-3), some (-1), ["4", "5"]⟩
     ⟨"Dan", some (-3), some (-2), ["4", "4"]⟩
     (by decide) (by decide) (by decide) (by decide) (by decide) (by decide)
     (by decide) (by decide) (by decide) (by decide) (by decide) (by decide)).2⟩

/-- C2 counterexample: four players — Ada at total -5, Bob and Cara at total
-3 with round -1, Dan at total -3 with round -2, cutoff 2 — yield places
"1", "T2", "T2", "T2" with Dan ordered ahead of Bob and Cara: the place
ranking is over Total alone, so the third tied player (Dan) also receives
"T2", not the bare numeral "2" the claim asserts. -/
theorem C2_cx :
    ((get_score_midround
      [{ place := "1", name := "Ada", totalScore := SNum.str "-1",
         roundScore := SNum.str "-1", holeScores := ["1", "4"], rating := "900" },
       { place := "2", name := "Bob", totalScore := SNum.str "-3",
         roundScore := SNum.str "-1", holeScores := ["4", "5"], rating := "900" },
       { place := "2", name := "Cara", totalScore := SNum.str "-3",
         roundScore := SNum.str "-1", holeScores := ["4", "5"], rating := "900" },
       { place := "4", name := "Dan", totalScore := SNum.str "-3",
         roundScore := SNum.str "-2", holeScores := ["4", "4"], rating := "900" }] 2 [5, 5]).1.map
        StandingsRow.name = ["Ada", "Dan", "Bob", "Cara"]) ∧
    ((get_score_midround
      [{ place := "1", name := "Ada", totalScore := SNum.str "-1",
         roundScore := SNum.str "-1", holeScores := ["1", "4"], rating := "900" },
       { place := "2", name := "Bob", totalScore := SNum.str "-3",
         roundScore := SNum.str "-1", holeScores := ["4", "5"], rating := "900" },
       { place := "2", name := "Cara", totalScore := SNum.str "-3",
         roundScore := SNum.str "-1", holeScores := ["4", "5"], rating := "900" },
       { place := "4", name := "Dan", totalScore := SNum.str "-3",
         roundScore := SNum.str "-2", holeScores := ["4", "4"], rating := "900" }] 2 [5, 5]).1.map
        StandingsRow.place = ["1", "T2", "T2", "T2"]) ∧
    ((get_score_midround
      [{ place := "1", name := "Ada", totalScore := SNum.str "-1",
         roundScore := SNum.str "-1", holeScores := ["1", "4"], rating := "900" },
       { place := "2", name := "Bob", totalScore := SNum.str "-3",
         roundScore := SNum.str "-1", holeScores := ["4", "5"], rating := "900" },
       { place := "2", name := "Cara", totalScore := SNum.str "-3",
         roundScore := SNum.str "-1", holeScores := ["4", "5"], rating := "900" },
       { place := "4", name := "Dan", totalScore := SNum.str "-3",
         roundScore := SNum.str "-2", holeScores := ["4", "4"], rating := "900" }] 2 [5, 5]).1.map
        StandingsRow.rd = ["-5", "-2", "-1", "-1"]) ∧
    ("T2" : String) ≠ "2" :=
  ⟨by decide, by decide, by decide, by decide⟩

end ShowScore
